import Mathlib

set_option autoImplicit false

/-
Verification of the in-memory cache + repository core of
src/flask_app/src/item_management.py.

Modelling conventions:
- Python values (JSON-like) are the inductive type PyVal; Python None is
  PyVal.none.
- Python dicts are association lists with unique keys; dget / dset / ddel /
  dupdate mirror d.get, d[k] = v, del d[k] and d.update.
- Wall-clock time (time.time()) is a rational number passed explicitly to
  every operation that reads the clock; time() is always positive in reality,
  which surfaces as 0 <= now hypotheses where the code compares expiry with 0.
- uuid4() is modelled by passing the generated identifier as an argument.
- The per-component reentrant locks serialize operations, so the sequential
  model below is the faithful semantics of each atomic operation.
- Shallow-copy semantics (value model): handlers below use plain values.
  A separate heap model (RepoH) tracks object identity for the
  copy-vs-reference claims about the repository.
-/

namespace ItemManagement

/-- Python values stored in records and in the cache: a JSON-like sum type.
PyVal.none is the Python None object. -/
inductive PyVal where
  | none
  | bool (b : Bool)
  | int (n : ℤ)
  | str (s : String)
  | obj (fields : List (String × PyVal))

/-- Python `x is not None` test, negated: true exactly on PyVal.none. -/
def PyVal.isNone : PyVal → Bool
  | PyVal.none => true
  | _ => false

/-- Python dict with string keys, as an association list with unique keys
(all dicts in the program are built by the operations below, which keep
keys unique). -/
abbrev Dict (α : Type) := List (String × α)

/-- Python d.get(k): the value at key k, or absent. -/
def dget {α : Type} : Dict α → String → Option α
  | [], _ => none
  | (k', v) :: rest, k => if k' = k then some v else dget rest k

/-- Python d[k] = v: overwrite in place if the key exists, else append. -/
def dset {α : Type} : Dict α → String → α → Dict α
  | [], k, v => [(k, v)]
  | (k', v') :: rest, k, v =>
      if k' = k then (k', v) :: rest else (k', v') :: dset rest k v

/-- Python del d[k] for a dict (keys are unique, so filtering the key out
removes exactly the one entry). -/
def ddel {α : Type} (d : Dict α) (k : String) : Dict α :=
  d.filter (fun kv => kv.1 != k)

/-- Python `k in d`. -/
def dhas {α : Type} (d : Dict α) (k : String) : Bool :=
  (dget d k).isSome

/-- Python d.update(patch), and the dict-literal merge with double-star
unpacking: assignments folded over patch in order. -/
def dupdate {α : Type} (d patch : Dict α) : Dict α :=
  patch.foldl (fun acc kv => dset acc kv.1 kv.2) d

/-- A repository record: a Python dict of fields. -/
abbrev Record := Dict PyVal

/-- The private map InMemoryRepository._data. -/
abbrev RepoData := Dict Record

namespace InMemoryRepository

/-- InMemoryRepository.create: _id = str(uuid4()) is passed in as genId;
item is the dict literal starting with the id key, then the unpacked
payload merged over it (so a payload key overwrites an earlier one);
the item is stored and the very same item is returned. -/
def create (data : RepoData) (genId : String) (payload : Record) :
    Record × RepoData :=
  let item := dupdate [("id", PyVal.str genId)] payload
  (item, dset data genId item)

/-- InMemoryRepository.list_all: a shallow copy of every record; copies
are equal as values, so the value model returns the map itself. -/
def list_all (data : RepoData) : RepoData :=
  data

/-- InMemoryRepository.get: item.copy() if item else None; a missing key
and a falsy (empty) dict both give None. -/
def get (data : RepoData) (id : String) : Option Record :=
  match dget data id with
  | some item => if item.isEmpty then none else some item
  | none => none

/-- InMemoryRepository.update: merge the patch into the stored record in
place, return a copy; `if not item` sends both a missing id and a stored
empty dict to None. -/
def update (data : RepoData) (id : String) (patch : Record) :
    Option Record × RepoData :=
  match dget data id with
  | none => (none, data)
  | some item =>
      if item.isEmpty then (none, data)
      else
        let item' := dupdate item patch
        (some item', dset data id item')

/-- InMemoryRepository.delete: remove if present, report prior presence. -/
def delete (data : RepoData) (id : String) : Bool × RepoData :=
  if dhas data id then (true, ddel data id) else (false, data)

end InMemoryRepository

/-- A cache entry: the stored value and its absolute expiry instant
(0 means no expiry, exactly as in the Python tuple). -/
structure CacheEntry where
  value : PyVal
  expiry : ℚ

/-- The private map InMemoryCache._store. -/
abbrev CacheData := Dict CacheEntry

namespace InMemoryCache

/-- InMemoryCache.set: expiry = time() + ttl if ttl_seconds and
ttl_seconds > 0 else 0; the truthiness test `ttl_seconds and` is the
ttl_seconds ≠ 0 conjunct. -/
def set (store : CacheData) (key : String) (value : PyVal)
    (ttl_seconds : ℚ) (now : ℚ) : CacheData :=
  let expiry := if ttl_seconds ≠ 0 ∧ 0 < ttl_seconds then now + ttl_seconds else 0
  dset store key ⟨value, expiry⟩

/-- InMemoryCache.get: a missing key gives None (a stored 2-tuple is always
truthy, so `if not entry` is exactly the missing-key test); an entry whose
truthy expiry lies strictly in the past is purged and gives None; otherwise
the stored value is returned. Returns the value and the possibly-purged
store. -/
def get (store : CacheData) (key : String) (now : ℚ) : PyVal × CacheData :=
  match dget store key with
  | none => (PyVal.none, store)
  | some e =>
      if e.expiry ≠ 0 ∧ e.expiry < now then (PyVal.none, ddel store key)
      else (e.value, store)

/-- InMemoryCache.delete: remove the key if present. -/
def delete (store : CacheData) (key : String) : CacheData :=
  if dhas store key then ddel store key else store

/-- InMemoryCache.clear. -/
def clear (_store : CacheData) : CacheData :=
  []

end InMemoryCache

/-- LIST_CACHE_KEY. -/
def LIST_CACHE_KEY : String := "items:list"

/-- LIST_CACHE_TTL (seconds). -/
def LIST_CACHE_TTL : ℚ := 30

/-- ITEM_CACHE_TTL (seconds). -/
def ITEM_CACHE_TTL : ℚ := 60

/-- cache_item_key: the item-cache key for an id (the "item:" head is the
module-level item key constant, inlined here). -/
def cache_item_key (item_id : String) : String :=
  "item:" ++ item_id

/-- The module-level state: the global repo and cache instances. -/
structure Sys where
  repo : RepoData
  cache : CacheData

/-- Reading item["id"] as the string it holds. Every record built by create
has an "id" key; a non-string value there would make the Python string
concatenation in cache_item_key raise, a path no modelled scenario takes. -/
def item_id_of (item : Record) : String :=
  match dget item "id" with
  | some (PyVal.str s) => s
  | _ => ""

/-- Response of GET /items/<id>. -/
inductive ItemResp where
  | ok (cached : Bool) (item : PyVal)
  | notFound

/-- Response of PUT /items/<id>. -/
inductive UpdateResp where
  | ok (item : Record)
  | notFound

/-- The dict of records stored under the list cache key, as a PyVal. -/
def objOfRepo (data : RepoData) : PyVal :=
  PyVal.obj (data.map (fun kv => (kv.1, PyVal.obj kv.2)))

/-- Python list(d.values()) for a cached dict value. -/
def pyValues : PyVal → List PyVal
  | PyVal.obj fs => fs.map (fun kv => kv.2)
  | _ => []

/-- POST /items handler, after the JSON validation guards (which return 400
before touching any state): create, invalidate the list cache, prime the
item cache. -/
def create_item (s : Sys) (genId : String) (payload : Record) (now : ℚ) :
    Record × Sys :=
  let r := InMemoryRepository.create s.repo genId payload
  let c1 := InMemoryCache.delete s.cache LIST_CACHE_KEY
  let c2 := InMemoryCache.set c1 (cache_item_key (item_id_of r.1)) (PyVal.obj r.1)
      ITEM_CACHE_TTL now
  (r.1, ⟨r.2, c2⟩)

/-- GET /items handler: cache-aside read of the whole collection. -/
def list_items (s : Sys) (now : ℚ) : (Bool × List PyVal) × Sys :=
  let g := InMemoryCache.get s.cache LIST_CACHE_KEY now
  if g.1.isNone then
    let data := InMemoryRepository.list_all s.repo
    let c2 := InMemoryCache.set g.2 LIST_CACHE_KEY (objOfRepo data) LIST_CACHE_TTL now
    ((false, data.map (fun kv => PyVal.obj kv.2)), ⟨s.repo, c2⟩)
  else
    ((true, pyValues g.1), ⟨s.repo, g.2⟩)

/-- GET /items/<id> handler: cache-aside read of one item. -/
def get_item (s : Sys) (item_id : String) (now : ℚ) : ItemResp × Sys :=
  let key := cache_item_key item_id
  let g := InMemoryCache.get s.cache key now
  if g.1.isNone then
    match InMemoryRepository.get s.repo item_id with
    | none => (ItemResp.notFound, ⟨s.repo, g.2⟩)
    | some item =>
        let c2 := InMemoryCache.set g.2 key (PyVal.obj item) ITEM_CACHE_TTL now
        (ItemResp.ok false (PyVal.obj item), ⟨s.repo, c2⟩)
  else
    (ItemResp.ok true g.1, ⟨s.repo, g.2⟩)

/-- PUT /items/<id> handler, after the JSON validation guards: update, then
invalidate both caches, then re-prime the item cache with the updated copy;
`if not updated` is the None-or-empty truthiness test. -/
def update_item (s : Sys) (item_id : String) (patch : Record) (now : ℚ) :
    UpdateResp × Sys :=
  let u := InMemoryRepository.update s.repo item_id patch
  match u.1 with
  | none => (UpdateResp.notFound, ⟨u.2, s.cache⟩)
  | some updated =>
      if updated.isEmpty then (UpdateResp.notFound, ⟨u.2, s.cache⟩)
      else
        let c1 := InMemoryCache.delete s.cache (cache_item_key item_id)
        let c2 := InMemoryCache.delete c1 LIST_CACHE_KEY
        let c3 := InMemoryCache.set c2 (cache_item_key item_id) (PyVal.obj updated)
            ITEM_CACHE_TTL now
        (UpdateResp.ok updated, ⟨u.2, c3⟩)

/-- DELETE /items/<id> handler: delete from the repo, then invalidate both
caches (no re-priming). -/
def delete_item (s : Sys) (item_id : String) : Bool × Sys :=
  let d := InMemoryRepository.delete s.repo item_id
  if d.1 then
    let c1 := InMemoryCache.delete s.cache (cache_item_key item_id)
    let c2 := InMemoryCache.delete c1 LIST_CACHE_KEY
    (true, ⟨d.2, c2⟩)
  else
    (false, ⟨d.2, s.cache⟩)

/-- POST /cache/clear handler. -/
def clear_cache (s : Sys) : Sys :=
  ⟨s.repo, InMemoryCache.clear s.cache⟩

/-- Heap of Python dict objects, for the claims about copies versus internal
references: the address of an object is its index in the list, and
allocation appends a fresh object. -/
structure Heap where
  objs : List Record

/-- Allocate a fresh dict object; returns its address and the new heap. -/
def Heap.alloc (h : Heap) (r : Record) : Nat × Heap :=
  (h.objs.length, ⟨h.objs ++ [r]⟩)

/-- Dereference an address. -/
def Heap.read (h : Heap) (a : Nat) : Record :=
  h.objs.getD a []

/-- Overwrite the object at an address (in-place dict mutation). -/
def Heap.write (h : Heap) (a : Nat) (r : Record) : Heap :=
  ⟨h.objs.set a r⟩

/-- The repository with explicit object identity: _data maps identifiers to
heap addresses of the stored record objects. -/
structure RepoH where
  data : Dict Nat
  heap : Heap

namespace RepoH

/-- create, with object identity: the freshly allocated item object is both
stored in _data and returned to the caller — the same object. -/
def create (s : RepoH) (genId : String) (payload : Record) : Nat × RepoH :=
  let item := dupdate [("id", PyVal.str genId)] payload
  let c := s.heap.alloc item
  (c.1, ⟨dset s.data genId c.1, c.2⟩)

/-- get, with object identity: item.copy() allocates a fresh object. -/
def get (s : RepoH) (id : String) : Option Nat × RepoH :=
  match dget s.data id with
  | none => (none, s)
  | some a =>
      let item := s.heap.read a
      if item.isEmpty then (none, s)
      else
        let c := s.heap.alloc item
        (some c.1, ⟨s.data, c.2⟩)

/-- update, with object identity: the stored object is mutated in place,
then a fresh copy of it is returned. -/
def update (s : RepoH) (id : String) (patch : Record) : Option Nat × RepoH :=
  match dget s.data id with
  | none => (none, s)
  | some a =>
      let item := s.heap.read a
      if item.isEmpty then (none, s)
      else
        let item' := dupdate item patch
        let h1 := s.heap.write a item'
        let c := h1.alloc item'
        (some c.1, ⟨s.data, c.2⟩)

/-- The dict comprehension of list_all: one fresh copy per stored record,
in iteration order. -/
def copyAll (h : Heap) : Dict Nat → Dict Nat × Heap
  | [] => ([], h)
  | (k, a) :: rest =>
      let c := h.alloc (h.read a)
      let r := copyAll c.2 rest
      ((k, c.1) :: r.1, r.2)

/-- list_all, with object identity. -/
def list_all (s : RepoH) : Dict Nat × RepoH :=
  let r := copyAll s.heap s.data
  (r.1, ⟨s.data, r.2⟩)

/-- A caller mutating a record object it was handed: returned[k] = v. -/
def mutateAt (s : RepoH) (a : Nat) (k : String) (v : PyVal) : RepoH :=
  ⟨s.data, s.heap.write a (dset (s.heap.read a) k v)⟩

/-- Well-formedness: every address stored in _data points into the heap. -/
def WF (s : RepoH) : Prop :=
  ∀ id a, dget s.data id = some a → a < s.heap.objs.length

end RepoH

/-- One public cache operation, for stating properties over sequences of
operations between a set and a later get. -/
inductive COp where
  | set (key : String) (value : PyVal) (ttl_seconds : ℚ) (now : ℚ)
  | get (key : String) (now : ℚ)
  | del (key : String)
  | clear

/-- Effect of one public cache operation on the store. -/
def applyCOp (store : CacheData) : COp → CacheData
  | COp.set k v t n => InMemoryCache.set store k v t n
  | COp.get k n => (InMemoryCache.get store k n).2
  | COp.del k => InMemoryCache.delete store k
  | COp.clear => InMemoryCache.clear store

/-- Effect of a sequence of public cache operations. -/
def applyCOps (store : CacheData) (ops : List COp) : CacheData :=
  ops.foldl applyCOp store

/-- An operation that writes to key k: deletes it, overwrites it, or clears
the store. A get never writes, nor does a set or delete of another key. -/
def COp.writes (k : String) : COp → Prop
  | COp.set k' _ _ _ => k' = k
  | COp.get _ _ => False
  | COp.del k' => k' = k
  | COp.clear => True

/-- One repository mutation, for characterizing the repository states
reachable through the public API. -/
inductive ROp where
  | create (genId : String) (payload : Record)
  | update (id : String) (patch : Record)
  | delete (id : String)

/-- Effect of one repository mutation on _data. -/
def applyROp (data : RepoData) : ROp → RepoData
  | ROp.create g p => (InMemoryRepository.create data g p).2
  | ROp.update i p => (InMemoryRepository.update data i p).2
  | ROp.delete i => (InMemoryRepository.delete data i).2

/-- The repository _data produced by a sequence of mutations on a fresh
instance. -/
def reachableRepo (ops : List ROp) : RepoData :=
  ops.foldl applyROp []

/- ------------------------------------------------------------------ -/
/- Lemmas about the dict operations.                                  -/
/- ------------------------------------------------------------------ -/

theorem dget_dset_self {α : Type} (d : Dict α) (k : String) (v : α) :
    dget (dset d k v) k = some v := by
  induction d with
  | nil => simp [dset, dget]
  | cons kv rest ih =>
      obtain ⟨k', v'⟩ := kv
      by_cases h : k' = k
      · simp [dset, h, dget]
      · simp [dset, h, dget, ih]

theorem dget_dset_ne {α : Type} (d : Dict α) {k' k : String} (v : α)
    (hne : k' ≠ k) : dget (dset d k' v) k = dget d k := by
  induction d with
  | nil => simp [dset, dget, hne]
  | cons kv rest ih =>
      obtain ⟨k₀, v₀⟩ := kv
      by_cases h : k₀ = k'
      · subst h
        simp [dset, dget, hne]
      · simp [dset, h, dget, ih]

theorem dget_ddel_self {α : Type} (d : Dict α) (k : String) :
    dget (ddel d k) k = none := by
  induction d with
  | nil => simp [ddel, dget]
  | cons kv rest ih =>
      obtain ⟨k₀, v₀⟩ := kv
      by_cases h : k₀ = k
      · subst h
        simpa [ddel, List.filter_cons, bne] using ih
      · simpa [ddel, List.filter_cons, bne, h, dget] using ih

theorem dget_ddel_ne {α : Type} (d : Dict α) {k' k : String}
    (hne : k' ≠ k) : dget (ddel d k') k = dget d k := by
  induction d with
  | nil => simp [ddel, dget]
  | cons kv rest ih =>
      obtain ⟨k₀, v₀⟩ := kv
      by_cases h : k₀ = k'
      · subst h
        simpa [ddel, List.filter_cons, bne, dget, hne] using ih
      · by_cases h2 : k₀ = k
        · simp [ddel, List.filter_cons, bne, h, dget, h2, Ne.symm hne]
        · simpa [ddel, List.filter_cons, bne, h, dget, h2] using ih

/-- Assignment never removes a key: a present key stays present. -/
theorem dget_dset_isSome {α : Type} (d : Dict α) {k : String} (k' : String)
    (v : α) (h : (dget d k).isSome) : (dget (dset d k' v) k).isSome := by
  by_cases he : k' = k
  · subst he
    simp [dget_dset_self]
  · rwa [dget_dset_ne d v he]

/-- Merging never removes a key: a key present before d.update(patch) is
still present after. -/
theorem dget_dupdate_isSome {α : Type} (d patch : Dict α) {k : String}
    (h : (dget d k).isSome) : (dget (dupdate d patch) k).isSome := by
  induction patch generalizing d with
  | nil => simpa [dupdate] using h
  | cons kv rest ih =>
      simpa [dupdate] using ih (dset d kv.1 kv.2) (dget_dset_isSome d kv.1 kv.2 h)

/-- A key that appears in no entry looks up to none. -/
theorem dget_eq_none_of_not_mem {α : Type} (d : Dict α) (k : String)
    (h : k ∉ d.map Prod.fst) : dget d k = none := by
  induction d with
  | nil => simp [dget]
  | cons kv rest ih =>
      obtain ⟨k₀, v₀⟩ := kv
      simp only [List.map_cons, List.mem_cons] at h
      push_neg at h
      simp only [dget]
      rw [if_neg (fun he => h.1 he.symm)]
      exact ih h.2

/-- Lookup after a merge, when the patch has unique keys (every Python dict
does): the patch wins where it speaks, the original survives elsewhere. -/
theorem dget_dupdate {α : Type} (d patch : Dict α) (k : String)
    (hnd : (patch.map Prod.fst).Nodup) :
    dget (dupdate d patch) k =
      match dget patch k with
      | some v => some v
      | none => dget d k := by
  induction patch generalizing d with
  | nil => simp [dupdate, dget]
  | cons kv rest ih =>
      obtain ⟨k₁, v₁⟩ := kv
      simp only [List.map_cons, List.nodup_cons] at hnd
      rw [dupdate, List.foldl_cons]
      have hstep := ih (dset d k₁ v₁) hnd.2
      rw [dupdate] at hstep
      by_cases h : k₁ = k
      · subst h
        have hrest : dget rest k₁ = none :=
          dget_eq_none_of_not_mem rest k₁ hnd.1
        rw [hstep, hrest]
        simp [dget, dget_dset_self]
      · rw [hstep, dget_dset_ne d v₁ h]
        simp [dget, h]

/-- dset never empties a dict. -/
theorem dset_ne_nil {α : Type} (d : Dict α) (k : String) (v : α) :
    dset d k v ≠ [] := by
  cases d with
  | nil => simp [dset]
  | cons kv rest =>
      obtain ⟨k₀, v₀⟩ := kv
      by_cases h : k₀ = k <;> simp [dset, h]

/-- Merging into a non-empty dict keeps it non-empty. -/
theorem dupdate_ne_nil {α : Type} (d patch : Dict α) (h : d ≠ []) :
    dupdate d patch ≠ [] := by
  induction patch generalizing d with
  | nil => simpa [dupdate] using h
  | cons kv rest ih =>
      simpa [dupdate] using ih (dset d kv.1 kv.2) (dset_ne_nil d kv.1 kv.2)

/-- Cache.delete removes the key. -/
theorem dget_cache_delete_self (store : CacheData) (k : String) :
    dget (InMemoryCache.delete store k) k = none := by
  rw [InMemoryCache.delete]
  by_cases h : dhas store k
  · simp [h, dget_ddel_self]
  · cases hg : dget store k with
    | none => simp [h, hg]
    | some e => exact absurd (by simp [dhas, hg]) h

/-- Cache.delete leaves other keys alone. -/
theorem dget_cache_delete_ne (store : CacheData) {k' k : String}
    (hne : k' ≠ k) :
    dget (InMemoryCache.delete store k') k = dget store k := by
  rw [InMemoryCache.delete]
  by_cases h : dhas store k'
  · simp [h, dget_ddel_ne _ hne]
  · simp [h]

/-- An item cache key never collides with the list cache key. -/
theorem cache_item_key_ne_list_key (item_id : String) :
    cache_item_key item_id ≠ LIST_CACHE_KEY := by
  intro h
  rw [cache_item_key, LIST_CACHE_KEY] at h
  have hd := congrArg String.data h
  rw [String.data_append] at hd
  have h1 : ("item:" : String).data = ['i', 't', 'e', 'm', ':'] := rfl
  have h2 : ("items:list" : String).data =
      ['i', 't', 'e', 'm', 's', ':', 'l', 'i', 's', 't'] := rfl
  rw [h1, h2] at hd
  simp at hd

/-- Cache.set with a positive ttl stores the value with expiry now + ttl. -/
theorem cache_set_pos (store : CacheData) (k : String) (v : PyVal)
    {t : ℚ} (now : ℚ) (ht : 0 < t) :
    InMemoryCache.set store k v t now = dset store k ⟨v, now + t⟩ := by
  rw [InMemoryCache.set]
  simp [ne_of_gt ht, ht]

/-- Cache.set with a non-positive ttl stores the value with no expiry. -/
theorem cache_set_nonpos (store : CacheData) (k : String) (v : PyVal)
    {t : ℚ} (now : ℚ) (ht : t ≤ 0) :
    InMemoryCache.set store k v t now = dset store k ⟨v, 0⟩ := by
  rw [InMemoryCache.set]
  have : ¬ (t ≠ 0 ∧ 0 < t) := fun hc => absurd hc.2 (not_lt.mpr ht)
  simp [this]

/- ------------------------------------------------------------------ -/
/- Claim theorems.                                                    -/
/- ------------------------------------------------------------------ -/

/-- C5: after Cache.set(k, v, t) with t > 0 at a (positive) wall-clock
instant now0, Cache.get(k) strictly before now0 + t returns v and leaves
the store unchanged, and Cache.get(k) strictly after now0 + t returns the
absent marker and purges the entry from the store as a side effect of that
get. -/
theorem C5_ttl_expiry (store : CacheData) (k : String) (v : PyVal)
    (t now0 now1 : ℚ) (hpos : 0 < now0) (ht : 0 < t) :
    (now1 - now0 < t →
      InMemoryCache.get (InMemoryCache.set store k v t now0) k now1 =
        (v, InMemoryCache.set store k v t now0)) ∧
    (t < now1 - now0 →
      InMemoryCache.get (InMemoryCache.set store k v t now0) k now1 =
        (PyVal.none, ddel (InMemoryCache.set store k v t now0) k) ∧
      dget (InMemoryCache.get (InMemoryCache.set store k v t now0) k now1).2 k =
        none) := by
  rw [cache_set_pos store k v now0 ht]
  constructor
  · intro hfresh
    rw [InMemoryCache.get, dget_dset_self]
    have hnot : ¬ ((⟨v, now0 + t⟩ : CacheEntry).expiry ≠ 0 ∧
        (⟨v, now0 + t⟩ : CacheEntry).expiry < now1) := by
      intro hc
      exact absurd hc.2 (by simp; linarith)
    simp [hnot]
  · intro hstale
    have hcond : (⟨v, now0 + t⟩ : CacheEntry).expiry ≠ 0 ∧
        (⟨v, now0 + t⟩ : CacheEntry).expiry < now1 := by
      constructor
      · simp
        intro hc
        linarith
      · simp
        linarith
    constructor
    · rw [InMemoryCache.get, dget_dset_self]
      simp [hcond]
    · rw [InMemoryCache.get, dget_dset_self]
      simp [hcond, dget_ddel_self]

/-- C5 witness: a concrete run with ttl 5 set at time 100, read at times
104 (fresh) and 106 (expired and purged). -/
theorem C5_ttl_expiry_witness :
    InMemoryCache.get (InMemoryCache.set [] "k" (PyVal.int 1) 5 100) "k" 104 =
      (PyVal.int 1, InMemoryCache.set [] "k" (PyVal.int 1) 5 100) ∧
    InMemoryCache.get (InMemoryCache.set [] "k" (PyVal.int 1) 5 100) "k" 106 =
      (PyVal.none, ddel (InMemoryCache.set [] "k" (PyVal.int 1) 5 100) "k") :=
  ⟨(C5_ttl_expiry [] "k" (PyVal.int 1) 5 100 104 (by norm_num) (by norm_num)).1
      (by norm_num),
   ((C5_ttl_expiry [] "k" (PyVal.int 1) 5 100 106 (by norm_num) (by norm_num)).2
      (by norm_num)).1⟩

/-- A never-expiring entry survives every cache operation that does not
write to its key. -/
theorem dget_applyCOp_preserve (store : CacheData) (k : String) (v : PyVal)
    (op : COp) (hop : ¬ COp.writes k op)
    (h : dget store k = some ⟨v, 0⟩) :
    dget (applyCOp store op) k = some ⟨v, 0⟩ := by
  cases op with
  | set k' v' t' n' =>
      have hne : k' ≠ k := hop
      rw [applyCOp, InMemoryCache.set, dget_dset_ne _ _ hne]
      exact h
  | get k' n' =>
      rw [applyCOp, InMemoryCache.get]
      by_cases hk : k' = k
      · subst hk
        rw [h]
        simpa using h
      · cases hg : dget store k' with
        | none => simpa using h
        | some e =>
            show dget (if e.expiry ≠ 0 ∧ e.expiry < n' then (PyVal.none, ddel store k')
                else (e.value, store)).2 k = some ⟨v, 0⟩
            by_cases hex : e.expiry ≠ 0 ∧ e.expiry < n'
            · rw [if_pos hex]
              simpa [dget_ddel_ne _ hk] using h
            · rw [if_neg hex]
              exact h
  | del k' =>
      have hne : k' ≠ k := hop
      rw [applyCOp, dget_cache_delete_ne _ hne]
      exact h
  | clear => exact absurd trivial hop

/-- A never-expiring entry survives every sequence of cache operations that
never writes to its key. -/
theorem dget_applyCOps_preserve (store : CacheData) (k : String) (v : PyVal)
    (ops : List COp) (hops : ∀ op ∈ ops, ¬ COp.writes k op)
    (h : dget store k = some ⟨v, 0⟩) :
    dget (applyCOps store ops) k = some ⟨v, 0⟩ := by
  induction ops generalizing store with
  | nil => simpa [applyCOps] using h
  | cons op rest ih =>
      rw [applyCOps, List.foldl_cons]
      exact ih (applyCOp store op) (fun o ho => hops o (List.mem_cons_of_mem op ho))
        (dget_applyCOp_preserve store k v op (hops op (List.mem_cons_self op rest)) h)

/-- C6: Cache.set(k, v, ttl) with ttl ≤ 0 (in particular ttl = 0) stores an
entry that never expires: after any further sequence of cache operations
none of which writes to k (no delete(k), no overwriting set(k, ...), no
clear), Cache.get(k) at any later instant returns v and leaves the store
unchanged. -/
theorem C6_no_expiry (store : CacheData) (k : String) (v : PyVal)
    (t now0 : ℚ) (ht : t ≤ 0) (ops : List COp)
    (hops : ∀ op ∈ ops, ¬ COp.writes k op) (now1 : ℚ) :
    InMemoryCache.get (applyCOps (InMemoryCache.set store k v t now0) ops) k now1 =
      (v, applyCOps (InMemoryCache.set store k v t now0) ops) := by
  have hbase : dget (InMemoryCache.set store k v t now0) k = some ⟨v, 0⟩ := by
    rw [cache_set_nonpos store k v now0 ht, dget_dset_self]
  have hkeep := dget_applyCOps_preserve _ k v ops hops hbase
  rw [InMemoryCache.get, hkeep]
  simp

/-- C6 witness: a concrete run with ttl 0 set at time 1, three interleaved
operations on another key, and a read far in the future. -/
theorem C6_no_expiry_witness :
    InMemoryCache.get
      (applyCOps (InMemoryCache.set [] "k" (PyVal.int 7) 0 1)
        [COp.set "j" PyVal.none 5 2, COp.get "j" 3, COp.del "j"]) "k" 1000000 =
      (PyVal.int 7,
        applyCOps (InMemoryCache.set [] "k" (PyVal.int 7) 0 1)
          [COp.set "j" PyVal.none 5 2, COp.get "j" 3, COp.del "j"]) :=
  C6_no_expiry [] "k" (PyVal.int 7) 0 1 (by norm_num)
    [COp.set "j" PyVal.none 5 2, COp.get "j" 3, COp.del "j"]
    (by
      intro op hop
      fin_cases hop <;> simp [COp.writes])
    1000000

/-- C9: Repository.delete(id) returns true exactly when the id was present;
after a delete that returned true, get(id) is absent and a second
delete(id) returns false. -/
theorem C9_delete_semantics (data : RepoData) (id : String) :
    ((InMemoryRepository.delete data id).1 = true ↔
      (dget data id).isSome = true) ∧
    ((InMemoryRepository.delete data id).1 = true →
      InMemoryRepository.get (InMemoryRepository.delete data id).2 id = none ∧
      (InMemoryRepository.delete (InMemoryRepository.delete data id).2 id).1 =
        false) := by
  cases hg : dget data id with
  | some item =>
      have h : dhas data id = true := by simp [dhas, hg]
      have h1 : InMemoryRepository.delete data id = (true, ddel data id) := by
        rw [InMemoryRepository.delete, h]
        simp
      refine ⟨by rw [h1]; simp [hg], fun _ => ⟨?_, ?_⟩⟩
      · rw [h1, InMemoryRepository.get, dget_ddel_self]
      · have h2 : dhas (ddel data id) id = false := by
          simp [dhas, dget_ddel_self]
        rw [h1, InMemoryRepository.delete, h2]
        simp
  | none =>
      have h : dhas data id = false := by simp [dhas, hg]
      have h1 : InMemoryRepository.delete data id = (false, data) := by
        rw [InMemoryRepository.delete, h]
        simp
      constructor
      · rw [h1]
        simp [hg]
      · intro hc
        rw [h1] at hc
        simp at hc

/-- C9 witness: a concrete repository holding one record under the id a. -/
theorem C9_delete_semantics_witness :
    (InMemoryRepository.delete [("a", [("id", PyVal.str "a")])] "a").1 = true ∧
    InMemoryRepository.get
      (InMemoryRepository.delete [("a", [("id", PyVal.str "a")])] "a").2 "a" =
      none ∧
    (InMemoryRepository.delete
      (InMemoryRepository.delete [("a", [("id", PyVal.str "a")])] "a").2 "a").1 =
      false := by
  have h := C9_delete_semantics [("a", [("id", PyVal.str "a")])] "a"
  have htrue : (InMemoryRepository.delete
      [("a", [("id", PyVal.str "a")])] "a").1 = true :=
    h.1.mpr (by rfl)
  exact ⟨htrue, (h.2 htrue).1, (h.2 htrue).2⟩

/-- C10: a cached None is indistinguishable from absence at the public
interface: after Cache.set(k, None, ttl) at any instant, Cache.get(k) at
any instant returns None, which is exactly the absent marker Cache.get
returns for a key that was never stored. -/
theorem C10_none_vs_miss (store store₀ : CacheData) (k k₀ : String)
    (t now0 now1 : ℚ) (h₀ : dget store₀ k₀ = none) :
    (InMemoryCache.get (InMemoryCache.set store k PyVal.none t now0) k now1).1 =
      PyVal.none ∧
    (InMemoryCache.get store₀ k₀ now1).1 = PyVal.none := by
  constructor
  · by_cases ht : 0 < t
    · rw [cache_set_pos store k PyVal.none now0 ht, InMemoryCache.get,
        dget_dset_self]
      by_cases hex : (⟨PyVal.none, now0 + t⟩ : CacheEntry).expiry ≠ 0 ∧
          (⟨PyVal.none, now0 + t⟩ : CacheEntry).expiry < now1
      · simp [hex]
      · simp [hex]
    · rw [cache_set_nonpos store k PyVal.none now0 (not_lt.mp ht),
        InMemoryCache.get, dget_dset_self]
      simp
  · rw [InMemoryCache.get, h₀]

/-- C10 witness: storing None under a ttl and reading it back gives the
same None that reading a never-stored key gives. -/
theorem C10_none_vs_miss_witness :
    (InMemoryCache.get (InMemoryCache.set [] "k" PyVal.none 5 100) "k" 101).1 =
      PyVal.none ∧
    (InMemoryCache.get [] "fresh" 101).1 = PyVal.none :=
  C10_none_vs_miss [] [] "k" "fresh" 5 100 101 (by rfl)

/-- Repository.update on a missing id is a no-op returning None. -/
theorem update_of_absent (data : RepoData) (id : String) (patch : Record)
    (h : dget data id = none) :
    InMemoryRepository.update data id patch = (none, data) := by
  rw [InMemoryRepository.update, h]

/-- Repository.update on a present (non-empty) record merges and stores. -/
theorem update_of_present (data : RepoData) (id : String) (patch : Record)
    (item : Record) (h : dget data id = some item) (hne : item.isEmpty = false) :
    InMemoryRepository.update data id patch =
      (some (dupdate item patch), dset data id (dupdate item patch)) := by
  rw [InMemoryRepository.update, h]
  simp [hne]

/-- Repository.get on a missing id returns None. -/
theorem rget_of_absent (data : RepoData) (id : String)
    (h : dget data id = none) : InMemoryRepository.get data id = none := by
  rw [InMemoryRepository.get, h]

/-- Repository.get on a present (non-empty) record returns it. -/
theorem rget_of_present (data : RepoData) (id : String) (item : Record)
    (h : dget data id = some item) (hne : item.isEmpty = false) :
    InMemoryRepository.get data id = some item := by
  rw [InMemoryRepository.get, h]
  simp [hne]

/-- Repository.delete on a missing id reports false and changes nothing. -/
theorem delete_of_absent (data : RepoData) (id : String)
    (h : dget data id = none) :
    InMemoryRepository.delete data id = (false, data) := by
  have hh : dhas data id = false := by simp [dhas, h]
  rw [InMemoryRepository.delete, hh]
  simp

/-- A dict with a present key is not empty. -/
theorem ne_empty_of_dget_isSome {α : Type} (d : Dict α) (k : String)
    (h : (dget d k).isSome) : d.isEmpty = false := by
  cases d with
  | nil => simp [dget] at h
  | cons kv rest => simp [List.isEmpty]

/-- Invariant of reachable repository states: every stored record carries
an id field (so in particular no stored record is the falsy empty dict). -/
def RepoInv (data : RepoData) : Prop :=
  ∀ id item, dget data id = some item → (dget item "id").isSome

/-- Each public mutation preserves the record invariant. -/
theorem repoInv_applyROp (data : RepoData) (op : ROp) (h : RepoInv data) :
    RepoInv (applyROp data op) := by
  cases op with
  | create g p =>
      intro id item hit
      rw [applyROp, InMemoryRepository.create] at hit
      by_cases hg : g = id
      · subst hg
        rw [dget_dset_self] at hit
        have heq := Option.some.inj hit
        rw [← heq]
        exact dget_dupdate_isSome _ p (by simp [dget])
      · rw [dget_dset_ne _ _ hg] at hit
        exact h id item hit
  | update i p =>
      intro id item hit
      rw [applyROp] at hit
      cases hsrc : dget data i with
      | none =>
          rw [update_of_absent data i p hsrc] at hit
          exact h id item hit
      | some it =>
          have hiid := h i it hsrc
          have hne := ne_empty_of_dget_isSome it "id" hiid
          rw [update_of_present data i p it hsrc hne] at hit
          by_cases hg : i = id
          · subst hg
            rw [dget_dset_self] at hit
            have heq := Option.some.inj hit
            rw [← heq]
            exact dget_dupdate_isSome _ p hiid
          · rw [dget_dset_ne _ _ hg] at hit
            exact h id item hit
  | delete i =>
      intro id item hit
      rw [applyROp, InMemoryRepository.delete] at hit
      by_cases hh : dhas data i
      · rw [if_pos hh] at hit
        by_cases hg : i = id
        · subst hg
          rw [dget_ddel_self] at hit
          cases hit
        · rw [dget_ddel_ne _ hg] at hit
          exact h id item hit
      · rw [if_neg hh] at hit
        exact h id item hit

/-- Every repository state reachable through the public API satisfies the
record invariant. -/
theorem repoInv_reachable (ops : List ROp) : RepoInv (reachableRepo ops) := by
  rw [reachableRepo]
  have hgen : ∀ data, RepoInv data → RepoInv (ops.foldl applyROp data) := by
    induction ops with
    | nil => intro d h; simpa using h
    | cons op rest ih =>
        intro d h
        rw [List.foldl_cons]
        exact ih _ (repoInv_applyROp d op h)
  exact hgen [] (fun id item hit => by simp [dget] at hit)

/-- C7: in every repository state reachable through the public API,
Repository.update(id, patch) — with a patch whose keys are unique, as the
keys of a Python dict are — merges the patch into the stored record and
stores and returns the merge: every field absent from the patch keeps its
stored value and every field present in the patch takes the patch's value;
for an id not in the repository, update returns the absent marker and
leaves the state unchanged. -/
theorem C7_update_merge (ops : List ROp) (id : String) (patch : Record)
    (hnd : (patch.map Prod.fst).Nodup) :
    (dget (reachableRepo ops) id = none →
      InMemoryRepository.update (reachableRepo ops) id patch =
        (none, reachableRepo ops)) ∧
    (∀ item, dget (reachableRepo ops) id = some item →
      InMemoryRepository.update (reachableRepo ops) id patch =
        (some (dupdate item patch),
          dset (reachableRepo ops) id (dupdate item patch)) ∧
      (∀ k v, dget patch k = some v → dget (dupdate item patch) k = some v) ∧
      (∀ k, dget patch k = none → dget (dupdate item patch) k = dget item k)) := by
  constructor
  · intro h
    exact update_of_absent _ id patch h
  · intro item hit
    have hinv := repoInv_reachable ops id item hit
    have hne := ne_empty_of_dget_isSome item "id" hinv
    refine ⟨update_of_present _ id patch item hit hne, ?_, ?_⟩
    · intro k v hp
      rw [dget_dupdate item patch k hnd, hp]
    · intro k hp
      rw [dget_dupdate item patch k hnd, hp]

/-- C7 witness: a repository holding one created record, patched on one of
its two payload fields. -/
theorem C7_update_merge_witness :
    InMemoryRepository.update
      (reachableRepo [ROp.create "X" [("name", PyVal.str "Alice"), ("age", PyVal.int 30)]])
      "X" [("age", PyVal.int 31)] =
      (some [("id", PyVal.str "X"), ("name", PyVal.str "Alice"), ("age", PyVal.int 31)],
       [("X", [("id", PyVal.str "X"), ("name", PyVal.str "Alice"), ("age", PyVal.int 31)])]) := by
  have h := C7_update_merge
    [ROp.create "X" [("name", PyVal.str "Alice"), ("age", PyVal.int 30)]]
    "X" [("age", PyVal.int 31)] (by simp)
  have hit : dget
      (reachableRepo [ROp.create "X" [("name", PyVal.str "Alice"), ("age", PyVal.int 30)]])
      "X" =
      some [("id", PyVal.str "X"), ("name", PyVal.str "Alice"), ("age", PyVal.int 30)] := by
    rfl
  rw [(h.2 _ hit).1]
  rfl

/-- C8: a not-found update or delete is atomic: when the id is absent from
the repository, both handlers surface not-found and return the repository
map and the cache store exactly as they were. -/
theorem C8_not_found_atomic (s : Sys) (item_id : String) (patch : Record)
    (now : ℚ) (h : dget s.repo item_id = none) :
    update_item s item_id patch now = (UpdateResp.notFound, s) ∧
    delete_item s item_id = (false, s) := by
  constructor
  · rw [update_item]
    rw [update_of_absent s.repo item_id patch h]
  · rw [delete_item, delete_of_absent s.repo item_id h]
    simp

/-- C8 witness: a system holding one record, asked to update and delete a
different, absent id. -/
theorem C8_not_found_atomic_witness :
    update_item
      ⟨[("a", [("id", PyVal.str "a")])], [("item:a", ⟨PyVal.int 3, 0⟩)]⟩
      "b" [("age", PyVal.int 31)] 100 =
      (UpdateResp.notFound,
        ⟨[("a", [("id", PyVal.str "a")])], [("item:a", ⟨PyVal.int 3, 0⟩)]⟩) ∧
    delete_item
      ⟨[("a", [("id", PyVal.str "a")])], [("item:a", ⟨PyVal.int 3, 0⟩)]⟩ "b" =
      (false,
        ⟨[("a", [("id", PyVal.str "a")])], [("item:a", ⟨PyVal.int 3, 0⟩)]⟩) :=
  C8_not_found_atomic
    ⟨[("a", [("id", PyVal.str "a")])], [("item:a", ⟨PyVal.int 3, 0⟩)]⟩
    "b" [("age", PyVal.int 31)] 100 (by rfl)

/-- Unfolding of the create handler: the created item, the repository with
it stored, and the cache after the list invalidation and the item prime. -/
theorem create_item_state (s : Sys) (genId : String) (pay : Record) (t0 : ℚ) :
    create_item s genId pay t0 =
      (dupdate [("id", PyVal.str genId)] pay,
       ⟨dset s.repo genId (dupdate [("id", PyVal.str genId)] pay),
        InMemoryCache.set (InMemoryCache.delete s.cache LIST_CACHE_KEY)
          (cache_item_key (item_id_of (dupdate [("id", PyVal.str genId)] pay)))
          (PyVal.obj (dupdate [("id", PyVal.str genId)] pay))
          ITEM_CACHE_TTL t0⟩) := by
  rfl

/-- A fresh cache hit: when the item key holds a non-None value that has
not expired, GET /items/id serves it with the cached flag and leaves the
state untouched. -/
theorem get_item_hit (s : Sys) (id : String) (v : PyVal) (e now : ℚ)
    (hv : v.isNone = false)
    (hc : dget s.cache (cache_item_key id) = some ⟨v, e⟩)
    (hfresh : ¬((⟨v, e⟩ : CacheEntry).expiry ≠ 0 ∧
      (⟨v, e⟩ : CacheEntry).expiry < now)) :
    get_item s id now = (ItemResp.ok true v, s) := by
  simp only [get_item, InMemoryCache.get, hc]
  rw [if_neg hfresh]
  simp [hv]

/-- A cache miss backed by a repository hit: GET /items/id serves the
repository record with the cached flag false. -/
theorem get_item_miss_found (s : Sys) (id : String) (now : ℚ) (item : Record)
    (hmiss : (InMemoryCache.get s.cache (cache_item_key id) now).1 = PyVal.none)
    (hfound : InMemoryRepository.get s.repo id = some item) :
    (get_item s id now).1 = ItemResp.ok false (PyVal.obj item) := by
  simp only [get_item, hmiss, hfound, PyVal.isNone, if_true]

/-- A collection cache miss: GET /items serves the repository listing with
the cached flag false. -/
theorem list_items_miss (s : Sys) (now : ℚ)
    (hmiss : dget s.cache LIST_CACHE_KEY = none) :
    (list_items s now).1 =
      (false, s.repo.map (fun kv => PyVal.obj kv.2)) := by
  simp only [list_items, InMemoryCache.get, hmiss, PyVal.isNone, if_true,
    InMemoryRepository.list_all]

/-- After create_item of the Alice payload, a GET of the new id within the
item TTL is served from the primed cache: it reports cached true with the
created record as body and leaves the state unchanged. -/
theorem create_then_get_cached (s : Sys) (genId : String) (t0 t1 : ℚ)
    (ht1 : t1 ≤ t0 + ITEM_CACHE_TTL) :
    (create_item s genId
        [("name", PyVal.str "Alice"), ("age", PyVal.int 30)] t0).1 =
      [("id", PyVal.str genId), ("name", PyVal.str "Alice"),
       ("age", PyVal.int 30)] ∧
    get_item
      (create_item s genId
        [("name", PyVal.str "Alice"), ("age", PyVal.int 30)] t0).2 genId t1 =
      (ItemResp.ok true (PyVal.obj
        [("id", PyVal.str genId), ("name", PyVal.str "Alice"),
         ("age", PyVal.int 30)]),
       (create_item s genId
        [("name", PyVal.str "Alice"), ("age", PyVal.int 30)] t0).2) := by
  have hitem : dupdate [("id", PyVal.str genId)]
      [("name", PyVal.str "Alice"), ("age", PyVal.int 30)] =
      [("id", PyVal.str genId), ("name", PyVal.str "Alice"),
       ("age", PyVal.int 30)] := rfl
  have hkey : item_id_of
      [("id", PyVal.str genId), ("name", PyVal.str "Alice"),
       ("age", PyVal.int 30)] = genId := rfl
  have hpos : (0 : ℚ) < ITEM_CACHE_TTL := by norm_num [ITEM_CACHE_TTL]
  constructor
  · rfl
  · rw [create_item_state, hitem, hkey]
    rw [cache_set_pos (InMemoryCache.delete s.cache LIST_CACHE_KEY)
      (cache_item_key genId)
      (PyVal.obj [("id", PyVal.str genId), ("name", PyVal.str "Alice"),
        ("age", PyVal.int 30)]) t0 hpos]
    have hfresh : ¬(((⟨PyVal.obj [("id", PyVal.str genId),
        ("name", PyVal.str "Alice"), ("age", PyVal.int 30)],
        t0 + ITEM_CACHE_TTL⟩ : CacheEntry).expiry ≠ 0 ∧
        (⟨PyVal.obj [("id", PyVal.str genId), ("name", PyVal.str "Alice"),
          ("age", PyVal.int 30)], t0 + ITEM_CACHE_TTL⟩ : CacheEntry).expiry <
          t1)) := by
      intro hc
      have h2 := hc.2
      simp only [] at h2
      exact absurd h2 (not_lt.mpr ht1)
    exact get_item_hit _ genId
      (PyVal.obj [("id", PyVal.str genId), ("name", PyVal.str "Alice"),
        ("age", PyVal.int 30)])
      (t0 + ITEM_CACHE_TTL) t1 rfl (dget_dset_self _ _ _) hfresh

/-- C4 as stated is violated by the code: the create handler primes the
item cache, so on a fresh system the FIRST GET /items/X after the create,
10 time-units later (well within the 60-unit item TTL), already reports
cached true — not the cached false the claim requires. -/
theorem C4_first_get_already_cached :
    (get_item
      (create_item ⟨[], []⟩ "X"
        [("name", PyVal.str "Alice"), ("age", PyVal.int 30)] 1000).2
      "X" 1010).1 =
      ItemResp.ok true (PyVal.obj
        [("id", PyVal.str "X"), ("name", PyVal.str "Alice"),
         ("age", PyVal.int 30)]) ∧
    ItemResp.ok true (PyVal.obj
        [("id", PyVal.str "X"), ("name", PyVal.str "Alice"),
         ("age", PyVal.int 30)]) ≠
      ItemResp.ok false (PyVal.obj
        [("id", PyVal.str "X"), ("name", PyVal.str "Alice"),
         ("age", PyVal.int 30)]) := by
  constructor
  · have h := (create_then_get_cached ⟨[], []⟩ "X" 1000 1010
      (by norm_num [ITEM_CACHE_TTL])).2
    exact congrArg Prod.fst h
  · intro h
    injection h with hb _
    exact Bool.noConfusion hb

/-- C4 amended: create returns the record of the generated id plus the
payload fields; because the create handler primes the item cache, the
first GET of the new id within the item TTL already reports cached true
with the created record as body, and a second GET within the TTL likewise
reports cached true with the identical body. -/
theorem C4_create_then_reads (s : Sys) (genId : String) (t0 t1 t2 : ℚ)
    (ht1 : t1 ≤ t0 + ITEM_CACHE_TTL) (ht2 : t2 ≤ t0 + ITEM_CACHE_TTL) :
    (create_item s genId
        [("name", PyVal.str "Alice"), ("age", PyVal.int 30)] t0).1 =
      [("id", PyVal.str genId), ("name", PyVal.str "Alice"),
       ("age", PyVal.int 30)] ∧
    (get_item
      (create_item s genId
        [("name", PyVal.str "Alice"), ("age", PyVal.int 30)] t0).2
      genId t1).1 =
      ItemResp.ok true (PyVal.obj
        [("id", PyVal.str genId), ("name", PyVal.str "Alice"),
         ("age", PyVal.int 30)]) ∧
    (get_item
      (get_item
        (create_item s genId
          [("name", PyVal.str "Alice"), ("age", PyVal.int 30)] t0).2
        genId t1).2
      genId t2).1 =
      ItemResp.ok true (PyVal.obj
        [("id", PyVal.str genId), ("name", PyVal.str "Alice"),
         ("age", PyVal.int 30)]) := by
  have h1 := create_then_get_cached s genId t0 t1 ht1
  have h2 := create_then_get_cached s genId t0 t2 ht2
  refine ⟨h1.1, congrArg Prod.fst h1.2, ?_⟩
  have hstate := congrArg Prod.snd h1.2
  rw [hstate]
  exact congrArg Prod.fst h2.2

/-- C4 amended witness: a concrete run on the empty system, created at time
1000 and read at times 1010 and 1020. -/
theorem C4_create_then_reads_witness :
    (create_item ⟨[], []⟩ "X"
        [("name", PyVal.str "Alice"), ("age", PyVal.int 30)] 1000).1 =
      [("id", PyVal.str "X"), ("name", PyVal.str "Alice"),
       ("age", PyVal.int 30)] ∧
    (get_item
      (create_item ⟨[], []⟩ "X"
        [("name", PyVal.str "Alice"), ("age", PyVal.int 30)] 1000).2
      "X" 1010).1 =
      ItemResp.ok true (PyVal.obj
        [("id", PyVal.str "X"), ("name", PyVal.str "Alice"),
         ("age", PyVal.int 30)]) ∧
    (get_item
      (get_item
        (create_item ⟨[], []⟩ "X"
          [("name", PyVal.str "Alice"), ("age", PyVal.int 30)] 1000).2
        "X" 1010).2
      "X" 1020).1 =
      ItemResp.ok true (PyVal.obj
        [("id", PyVal.str "X"), ("name", PyVal.str "Alice"),
         ("age", PyVal.int 30)]) :=
  C4_create_then_reads ⟨[], []⟩ "X" 1000 1010 1020
    (by norm_num [ITEM_CACHE_TTL]) (by norm_num [ITEM_CACHE_TTL])

/-- A list with isEmpty false is not nil. -/
theorem ne_nil_of_isEmpty_false {α : Type} (l : List α)
    (h : l.isEmpty = false) : l ≠ [] := by
  cases l with
  | nil => simp at h
  | cons a t => simp

/-- A non-nil list has isEmpty false. -/
theorem isEmpty_false_of_ne_nil {α : Type} (l : List α) (h : l ≠ []) :
    l.isEmpty = false := by
  cases l with
  | nil => exact absurd rfl h
  | cons a t => rfl

/-- A Repository.update that reports a record also stored it: the new _data
is the old one with the merged record in place, and the merged record is
non-empty (truthy). -/
theorem rupdate_some_inv (data : RepoData) (id : String) (patch : Record)
    (u : Record) (h : (InMemoryRepository.update data id patch).1 = some u) :
    (InMemoryRepository.update data id patch).2 = dset data id u ∧
    u.isEmpty = false := by
  cases hsrc : dget data id with
  | none =>
      rw [update_of_absent data id patch hsrc] at h
      simp at h
  | some item =>
      by_cases hemp : item.isEmpty = true
      · have hnone : InMemoryRepository.update data id patch = (none, data) := by
          rw [InMemoryRepository.update, hsrc]
          simp [hemp]
        rw [hnone] at h
        simp at h
      · have hne : item.isEmpty = false := by simpa using hemp
        have hupd := update_of_present data id patch item hsrc hne
        rw [hupd] at h
        have hu : dupdate item patch = u := by simpa using h
        subst hu
        refine ⟨by rw [hupd], ?_⟩
        exact isEmpty_false_of_ne_nil _
          (dupdate_ne_nil item patch (ne_nil_of_isEmpty_false item hne))

/-- An update handler run that returns ok determined the merged record and
the final state: the repository holds the merged record, and the cache has
had the item and list keys invalidated and the item key re-primed. -/
theorem update_item_ok (s : Sys) (item_id : String) (patch : Record)
    (now : ℚ) (u : Record) (s' : Sys)
    (h : update_item s item_id patch now = (UpdateResp.ok u, s')) :
    (InMemoryRepository.update s.repo item_id patch).1 = some u ∧
    u.isEmpty = false ∧
    s' = ⟨dset s.repo item_id u,
      InMemoryCache.set
        (InMemoryCache.delete
          (InMemoryCache.delete s.cache (cache_item_key item_id))
          LIST_CACHE_KEY)
        (cache_item_key item_id) (PyVal.obj u) ITEM_CACHE_TTL now⟩ := by
  simp only [update_item] at h
  cases hru : (InMemoryRepository.update s.repo item_id patch).1 with
  | none =>
      simp only [hru] at h
      simp at h
  | some updated =>
      simp only [hru] at h
      by_cases hemp : updated.isEmpty = true
      · rw [if_pos hemp] at h
        simp at h
      · rw [if_neg hemp] at h
        injection h with hfst hsnd
        injection hfst with h1
        subst h1
        obtain ⟨hdata, hnemp⟩ := rupdate_some_inv s.repo item_id patch updated hru
        refine ⟨rfl, hnemp, ?_⟩
        rw [← hsnd, hdata]

/-- A stored entry whose truthy expiry lies in the past: get purges it and
reports absence. -/
theorem cache_get_expired (store : CacheData) (k : String) (v : PyVal)
    (e now : ℚ) (hc : dget store k = some ⟨v, e⟩) (hexp : e ≠ 0 ∧ e < now) :
    InMemoryCache.get store k now = (PyVal.none, ddel store k) := by
  simp only [InMemoryCache.get, hc]
  rw [if_pos (by simpa using hexp)]

/-- C1: write-then-read consistency. Whenever the update handler completes
successfully (returning the merged record u and the new state), the
repository holds u under the id, any later single-item read through the
cache-aside path returns body u (from the re-primed cache if the entry is
still fresh, else from the repository — never the pre-update value, which
survives nowhere), and any later collection read is a cache miss that
serves exactly the post-update repository listing. -/
theorem C1_write_then_read (s : Sys) (item_id : String) (patch : Record)
    (now0 now1 : ℚ) (u : Record) (s' : Sys)
    (hupd : update_item s item_id patch now0 = (UpdateResp.ok u, s')) :
    dget s'.repo item_id = some u ∧
    (∃ b, (get_item s' item_id now1).1 = ItemResp.ok b (PyVal.obj u)) ∧
    (list_items s' now1).1 =
      (false, s'.repo.map (fun kv => PyVal.obj kv.2)) := by
  obtain ⟨hru, hune, hs'⟩ := update_item_ok s item_id patch now0 u s' hupd
  have hpos : (0 : ℚ) < ITEM_CACHE_TTL := by norm_num [ITEM_CACHE_TTL]
  have hrepo' : s'.repo = dset s.repo item_id u := by rw [hs']
  have hcache' : s'.cache = InMemoryCache.set
      (InMemoryCache.delete
        (InMemoryCache.delete s.cache (cache_item_key item_id))
        LIST_CACHE_KEY)
      (cache_item_key item_id) (PyVal.obj u) ITEM_CACHE_TTL now0 := by
    rw [hs']
  have hck : dget s'.cache (cache_item_key item_id) =
      some ⟨PyVal.obj u, now0 + ITEM_CACHE_TTL⟩ := by
    rw [hcache', cache_set_pos _ _ _ _ hpos]
    exact dget_dset_self _ _ _
  have hcl : dget s'.cache LIST_CACHE_KEY = none := by
    rw [hcache', cache_set_pos _ _ _ _ hpos,
      dget_dset_ne _ _ (cache_item_key_ne_list_key item_id),
      dget_cache_delete_self]
  have hrg : InMemoryRepository.get s'.repo item_id = some u := by
    rw [hrepo']
    exact rget_of_present _ _ u (dget_dset_self _ _ _) hune
  refine ⟨by rw [hrepo']; exact dget_dset_self _ _ _, ?_, ?_⟩
  · by_cases hexp : (now0 + ITEM_CACHE_TTL ≠ 0 ∧ now0 + ITEM_CACHE_TTL < now1)
    · exact ⟨false, get_item_miss_found s' item_id now1 u
        (congrArg Prod.fst (cache_get_expired s'.cache _ _ _ now1 hck hexp))
        hrg⟩
    · exact ⟨true, congrArg Prod.fst
        (get_item_hit s' item_id (PyVal.obj u) (now0 + ITEM_CACHE_TTL) now1
          rfl hck (by simpa using hexp))⟩
  · exact list_items_miss s' now1 hcl

/-- C1 witness: a concrete record updated at time 100 and read (item and
collection) at time 1000, after the 60-unit item TTL has lapsed. -/
theorem C1_write_then_read_witness :
    dget (update_item
        ⟨[("X", [("id", PyVal.str "X"), ("age", PyVal.int 30)])], []⟩
        "X" [("age", PyVal.int 31)] 100).2.repo "X" =
      some [("id", PyVal.str "X"), ("age", PyVal.int 31)] ∧
    (∃ b, (get_item (update_item
        ⟨[("X", [("id", PyVal.str "X"), ("age", PyVal.int 30)])], []⟩
        "X" [("age", PyVal.int 31)] 100).2 "X" 1000).1 =
      ItemResp.ok b (PyVal.obj [("id", PyVal.str "X"), ("age", PyVal.int 31)])) ∧
    (list_items (update_item
        ⟨[("X", [("id", PyVal.str "X"), ("age", PyVal.int 30)])], []⟩
        "X" [("age", PyVal.int 31)] 100).2 1000).1 =
      (false, (update_item
        ⟨[("X", [("id", PyVal.str "X"), ("age", PyVal.int 30)])], []⟩
        "X" [("age", PyVal.int 31)] 100).2.repo.map (fun kv => PyVal.obj kv.2)) :=
  C1_write_then_read
    ⟨[("X", [("id", PyVal.str "X"), ("age", PyVal.int 30)])], []⟩
    "X" [("age", PyVal.int 31)] 100 1000
    [("id", PyVal.str "X"), ("age", PyVal.int 31)] _ (by rfl)

/-- C2 is violated by the code: create with a payload that itself contains
an id key stores and returns a record whose id field is the client-supplied
value, not the generated identifier — the dict literal puts the generated
id first and the unpacked payload then overwrites it. The record is stored
under the generated key, so its id field does not match its storage key. -/
theorem C2_create_id_overwritten :
    InMemoryRepository.create [] "generated-uuid"
        [("id", PyVal.str "client-id"), ("name", PyVal.str "Alice")] =
      ([("id", PyVal.str "client-id"), ("name", PyVal.str "Alice")],
       [("generated-uuid",
         [("id", PyVal.str "client-id"), ("name", PyVal.str "Alice")])]) := by
  rfl

/-- Writing one address leaves every other address unchanged. -/
theorem Heap.read_write_ne (h : Heap) (a a' : Nat) (r : Record)
    (hne : a ≠ a') : (h.write a' r).read a = h.read a := by
  rw [Heap.write, Heap.read, Heap.read]
  rw [List.getD, List.getD, List.get?_eq_getElem?, List.get?_eq_getElem?,
    List.getElem?_set_ne (Ne.symm hne)]

/-- Growing the heap leaves every existing address unchanged. -/
theorem Heap.read_append_lt (h : Heap) (r : Record) (a : Nat)
    (ha : a < h.objs.length) :
    (⟨h.objs ++ [r]⟩ : Heap).read a = h.read a := by
  rw [Heap.read, Heap.read]
  rw [List.getD, List.getD, List.get?_eq_getElem?, List.get?_eq_getElem?,
    List.getElem?_append, if_pos ha]

/-- Inversion of a found RepoH.get: the returned address is the fresh
top-of-heap address and the new state keeps _data and extends the heap by
the copy. -/
theorem rgetH_some_inv (s : RepoH) (id : String) (a' : Nat) (s₂ : RepoH)
    (hg : RepoH.get s id = (some a', s₂)) :
    ∃ a, dget s.data id = some a ∧ (s.heap.read a).isEmpty = false ∧
      a' = s.heap.objs.length ∧
      s₂ = ⟨s.data, ⟨s.heap.objs ++ [s.heap.read a]⟩⟩ := by
  cases hsrc : dget s.data id with
  | none =>
      simp only [RepoH.get, hsrc] at hg
      simp at hg
  | some a =>
      simp only [RepoH.get, hsrc, Heap.alloc] at hg
      by_cases hemp : (s.heap.read a).isEmpty = true
      · rw [if_pos hemp] at hg
        simp at hg
      · rw [if_neg hemp] at hg
        injection hg with h1 h2
        exact ⟨a, rfl, by simpa using hemp,
          (Option.some.inj h1).symm, h2.symm⟩

/-- Inversion of a found RepoH.update: the stored object is overwritten in
place with the merge, and the returned address is the fresh top-of-heap
address of the copy. -/
theorem rupdateH_some_inv (s : RepoH) (id : String) (patch : Record)
    (a' : Nat) (s₂ : RepoH)
    (hg : RepoH.update s id patch = (some a', s₂)) :
    ∃ a, dget s.data id = some a ∧ (s.heap.read a).isEmpty = false ∧
      a' = s.heap.objs.length ∧
      s₂ = ⟨s.data,
        ⟨(s.heap.objs.set a (dupdate (s.heap.read a) patch)) ++
          [dupdate (s.heap.read a) patch]⟩⟩ := by
  cases hsrc : dget s.data id with
  | none =>
      simp only [RepoH.update, hsrc] at hg
      simp at hg
  | some a =>
      simp only [RepoH.update, hsrc, Heap.alloc, Heap.write] at hg
      by_cases hemp : (s.heap.read a).isEmpty = true
      · rw [if_pos hemp] at hg
        simp at hg
      · rw [if_neg hemp] at hg
        injection hg with h1 h2
        refine ⟨a, rfl, by simpa using hemp, ?_, h2.symm⟩
        rw [← Option.some.inj h1, List.length_set]

/-- Every address handed out by the list_all comprehension is at or above
the old top of the heap (each is freshly allocated). -/
theorem copyAll_addrs_ge (h : Heap) (d : Dict Nat) (id : String) (a' : Nat)
    (hget : dget (RepoH.copyAll h d).1 id = some a') :
    h.objs.length ≤ a' := by
  induction d generalizing h with
  | nil => simp [RepoH.copyAll, dget] at hget
  | cons kv rest ih =>
      obtain ⟨k, a⟩ := kv
      simp only [RepoH.copyAll, Heap.alloc] at hget
      rw [dget] at hget
      by_cases hk : k = id
      · rw [if_pos hk] at hget
        have := Option.some.inj hget
        omega
      · rw [if_neg hk] at hget
        have := ih ⟨h.objs ++ [h.read a]⟩ hget
        simp at this
        omega

/-- C3 amended: get, list_all and update hand the caller fresh copies —
mutating any record they return leaves every record stored in the
Repository unchanged, and two get calls for the same id return distinct
objects — but create returns the very object it stores: the address create
returns is the address recorded in _data (so mutating that record mutates
the stored state, as the counterexample shows concretely). -/
theorem C3_copies_except_create (s : RepoH) (hwf : RepoH.WF s) :
    (∀ genId payload,
      dget (RepoH.create s genId payload).2.data genId =
        some (RepoH.create s genId payload).1) ∧
    (∀ id a' s₂, RepoH.get s id = (some a', s₂) →
      ∀ k v id₀ a₀, dget s₂.data id₀ = some a₀ →
        (RepoH.mutateAt s₂ a' k v).heap.read a₀ = s₂.heap.read a₀) ∧
    (∀ id patch a' s₂, RepoH.update s id patch = (some a', s₂) →
      ∀ k v id₀ a₀, dget s₂.data id₀ = some a₀ →
        (RepoH.mutateAt s₂ a' k v).heap.read a₀ = s₂.heap.read a₀) ∧
    (∀ id' a', dget (RepoH.list_all s).1 id' = some a' →
      ∀ k v id₀ a₀, dget (RepoH.list_all s).2.data id₀ = some a₀ →
        (RepoH.mutateAt (RepoH.list_all s).2 a' k v).heap.read a₀ =
          (RepoH.list_all s).2.heap.read a₀) ∧
    (∀ id a₁ s₂ a₂ s₃, RepoH.get s id = (some a₁, s₂) →
      RepoH.get s₂ id = (some a₂, s₃) → a₁ ≠ a₂) := by
  refine ⟨?_, ?_, ?_, ?_, ?_⟩
  · intro genId payload
    simp only [RepoH.create]
    exact dget_dset_self _ _ _
  · intro id a' s₂ hg k v id₀ a₀ hstored
    obtain ⟨a, hsrc, hemp, ha', hs₂⟩ := rgetH_some_inv s id a' s₂ hg
    subst hs₂
    have ha₀ : a₀ < s.heap.objs.length := hwf id₀ a₀ hstored
    have hne : a₀ ≠ a' := by omega
    simp only [RepoH.mutateAt]
    exact Heap.read_write_ne _ a₀ a' _ hne
  · intro id patch a' s₂ hg k v id₀ a₀ hstored
    obtain ⟨a, hsrc, hemp, ha', hs₂⟩ := rupdateH_some_inv s id patch a' s₂ hg
    subst hs₂
    have ha₀ : a₀ < s.heap.objs.length := hwf id₀ a₀ hstored
    have hne : a₀ ≠ a' := by omega
    simp only [RepoH.mutateAt]
    exact Heap.read_write_ne _ a₀ a' _ hne
  · intro id' a' hret k v id₀ a₀ hstored
    have hge : s.heap.objs.length ≤ a' := by
      apply copyAll_addrs_ge s.heap s.data id'
      simpa [RepoH.list_all] using hret
    have ha₀ : a₀ < s.heap.objs.length := by
      apply hwf id₀ a₀
      simpa [RepoH.list_all] using hstored
    have hne : a₀ ≠ a' := by omega
    simp only [RepoH.mutateAt]
    exact Heap.read_write_ne _ a₀ a' _ hne
  · intro id a₁ s₂ a₂ s₃ hg1 hg2
    obtain ⟨a, hsrc, hemp, ha₁, hs₂⟩ := rgetH_some_inv s id a₁ s₂ hg1
    obtain ⟨b, hsrc2, hemp2, ha₂, hs₃⟩ := rgetH_some_inv s₂ id a₂ s₃ hg2
    have hlen : s₂.heap.objs.length = s.heap.objs.length + 1 := by
      rw [hs₂]
      simp
    omega

/-- C3 amended witness: a one-record well-formed repository; create's
returned address is the stored one, and mutating the fresh copy handed out
by get does not change the stored record. -/
theorem C3_copies_except_create_witness :
    dget (RepoH.create ⟨[("a", 0)], ⟨[[("id", PyVal.str "a")]]⟩⟩ "X"
        [("name", PyVal.str "N")]).2.data "X" =
      some (RepoH.create ⟨[("a", 0)], ⟨[[("id", PyVal.str "a")]]⟩⟩ "X"
        [("name", PyVal.str "N")]).1 ∧
    (RepoH.mutateAt
        ⟨[("a", 0)], ⟨[[("id", PyVal.str "a")], [("id", PyVal.str "a")]]⟩⟩
        1 "x" (PyVal.int 0)).heap.read 0 =
      (⟨[("a", 0)],
        ⟨[[("id", PyVal.str "a")], [("id", PyVal.str "a")]]⟩⟩ : RepoH).heap.read 0 := by
  have hwf : RepoH.WF ⟨[("a", 0)], ⟨[[("id", PyVal.str "a")]]⟩⟩ := by
    intro id a h
    by_cases hid : "a" = id
    · rw [dget, if_pos hid] at h
      have h0 := Option.some.inj h
      show a < 1
      omega
    · rw [dget, if_neg hid, dget] at h
      simp at h
  have h := C3_copies_except_create ⟨[("a", 0)], ⟨[[("id", PyVal.str "a")]]⟩⟩ hwf
  exact ⟨h.1 "X" [("name", PyVal.str "N")],
    h.2.1 "a" 1 ⟨[("a", 0)], ⟨[[("id", PyVal.str "a")], [("id", PyVal.str "a")]]⟩⟩
      (by rfl) "x" (PyVal.int 0) "a" 0 (by rfl)⟩

/-- C3 as stated is violated by the code: create stores and returns the
same dict object (no copy). On the empty repository, create hands back
address 0, which is exactly the address stored in _data; the caller's
in-place mutation of the returned record is then visible through the
repository's own pointer: the stored record changes from the Alice record
to the mutated one. -/
theorem C3_create_returns_internal_reference :
    (RepoH.create ⟨[], ⟨[]⟩⟩ "X" [("name", PyVal.str "Alice")]).1 = 0 ∧
    dget (RepoH.create ⟨[], ⟨[]⟩⟩ "X" [("name", PyVal.str "Alice")]).2.data "X" =
      some 0 ∧
    (RepoH.create ⟨[], ⟨[]⟩⟩ "X" [("name", PyVal.str "Alice")]).2.heap.read 0 =
      [("id", PyVal.str "X"), ("name", PyVal.str "Alice")] ∧
    (RepoH.mutateAt
        (RepoH.create ⟨[], ⟨[]⟩⟩ "X" [("name", PyVal.str "Alice")]).2
        0 "name" (PyVal.str "HACKED")).heap.read 0 =
      [("id", PyVal.str "X"), ("name", PyVal.str "HACKED")] := by
  exact ⟨rfl, rfl, rfl, rfl⟩

end ItemManagement
